import Mathlib

/-!
Verification of the k8s-resource-collector core (cmd/main.go) against its
natural-language specification.

The embedding works over lists of characters so that every definition is
executable and kernel-reducible.  Go standard-library string functions used by
the source (strings.Split, strings.TrimSpace, strings.HasPrefix,
strings.SplitN, strings.ToLower, strings.HasSuffix, strings.ReplaceAll,
strconv.Atoi, the slice-contains helper) are modelled here over List Char with
the documented Go semantics; the program functions themselves
(makeResourceKey, parseResources, findUniqueResources, findCommonResources,
processMustGatherFile, processMustGatherToSingleFile, isDeprecated,
shouldSkipResource, the collection loops of collectResources and
collectAllResourcesToSingleFile) are translated statement by statement from
cmd/main.go.
-/

namespace KRC

/-- Go strings, modelled as their character sequences. -/
abbrev Str := List Char

/-- Character data of a Lean string literal, used to write Go string
literals in the embedding. -/
def str (s : String) : Str := s.data

/-- Model of unicode.IsSpace restricted to the Latin-1 range, which is what
strings.TrimSpace consults for the ASCII inputs this program handles:
space, tab, newline, carriage return, vertical tab, form feed, NEL, NBSP. -/
def isGoSpace (c : Char) : Bool :=
  c = ' ' || c = '\t' || c = '\n' || c = '\r' ||
  c = Char.ofNat 11 || c = Char.ofNat 12 || c = Char.ofNat 133 || c = Char.ofNat 160

/-- Model of strings.TrimSpace: drop leading and trailing whitespace. -/
def goTrimSpace (s : Str) : Str :=
  ((s.dropWhile isGoSpace).reverse.dropWhile isGoSpace).reverse

/-- Model of strings.HasPrefix. -/
def goStartsWith (s pre : Str) : Bool := pre.isPrefixOf s

/-- Model of strings.HasSuffix. -/
def goEndsWith (s suf : Str) : Bool := suf.isSuffixOf s

/-- Model of strings.Contains: some suffix of s has sub as a prefix. -/
def goContains : Str → Str → Bool
  | [], sub => sub.isEmpty
  | c :: rest, sub => sub.isPrefixOf (c :: rest) || goContains rest sub

/-- Model of strings.ToLower for the ASCII inputs this program handles. -/
def goToLower (s : Str) : Str := s.map Char.toLower

/-- Model of strings.Split with a one-character separator: the list of
maximal separator-free segments, in order. -/
def splitChar (sep : Char) : Str → List Str
  | [] => [[]]
  | c :: rest =>
    if c = sep then [] :: splitChar sep rest
    else
      match splitChar sep rest with
      | [] => [[c]]
      | p :: ps => (c :: p) :: ps

/-- Model of strings.ReplaceAll with a one-character pattern (the program
only replaces the one-character pattern slash). -/
def goReplaceAll (s : Str) (old : Char) (new : Str) : Str :=
  List.intercalate new (splitChar old s)

/-- Scanner for strings.SplitN with count 2: stop at the first occurrence of
the separator, given as head character plus remaining characters. -/
def goSplitFirst (s0 : Char) (sepRest : Str) : Str → Str → List Str
  | [], cur => [cur.reverse]
  | c :: rest, cur =>
    if c = s0 ∧ sepRest.isPrefixOf rest then
      [cur.reverse, rest.drop sepRest.length]
    else
      goSplitFirst s0 sepRest rest (c :: cur)

/-- Model of strings.SplitN with count 2. -/
def goSplitN2 (s sep : Str) : List Str :=
  match sep with
  | [] => [s]
  | s0 :: sepRest => goSplitFirst s0 sepRest s []

/-- Regrouping pass for splitting on the document separator: newline-split
parts that start with three dashes open a new document (the dashes are
consumed), all other parts are rejoined with the newline that separated
them. -/
def regroupDocs (cur : Str) : List Str → List Str
  | [] => [cur]
  | p :: rest =>
    if goStartsWith p (str "---") then cur :: regroupDocs (p.drop 3) rest
    else regroupDocs (cur ++ '\n' :: p) rest

/-- Model of strings.Split with the separator newline-dash-dash-dash, as used
on must-gather file contents: equal to splitting at every newline that is
immediately followed by three dashes, consuming the four separator
characters. -/
def goSplitDocs (s : Str) : List Str :=
  match splitChar '\n' s with
  | [] => [s]
  | p :: rest => regroupDocs p rest

/-- Digit-string parser underlying the Atoi model. -/
def parseDigitsAux : Str → Nat → Option Nat
  | [], acc => some acc
  | c :: rest, acc =>
    if c.isDigit then parseDigitsAux rest (acc * 10 + (c.toNat - 48)) else none

/-- All-digits parse of a nonempty string. -/
def parseDigits : Str → Option Nat
  | [] => none
  | s => parseDigitsAux s 0

/-- Model of strconv.Atoi: optional sign followed by at least one digit
(range checks are irrelevant at the magnitudes the rule set uses). -/
def goAtoi : Str → Option Int
  | [] => none
  | '+' :: rest => (parseDigits rest).map Int.ofNat
  | '-' :: rest => (parseDigits rest).map (fun n => -(n : Int))
  | s => (parseDigits s).map Int.ofNat

/-- Model of the contains helper of cmd/main.go (slice membership). -/
def containsString : List Str → Str → Bool
  | [], _ => false
  | s :: rest, item => if s = item then true else containsString rest item

/-!
## Data model

Parsed YAML documents are the untyped Go values the source stores in
map-of-string-to-interface maps: strings, numbers, booleans, null, arrays and
string-keyed objects.  Objects are association lists with distinct keys (Go
maps); the list order stands for one possible Go map iteration order, and
theorems about map-order-sensitive behavior quantify over it.
-/

/-- An untyped value as produced by the YAML unmarshaler
(the Go interface value). -/
inductive GoVal where
  | str : Str → GoVal
  | num : Int → GoVal
  | bool : Bool → GoVal
  | null : GoVal
  | arr : List GoVal → GoVal
  | obj : List (Str × GoVal) → GoVal

/-- A parsed document or list item: a string-keyed Go map. -/
abbrev Obj := List (Str × GoVal)

/-- The inventory accumulator of the must-gather parser: the Go map from
resource key to collected items, represented as an association list whose
order stands for one possible Go map iteration order. -/
abbrev ResourceMap := List (Str × List Obj)

/-- First-match lookup in a parsed document (Go map indexing). -/
def lookupField : Obj → Str → Option GoVal
  | [], _ => none
  | (k, v) :: rest, key => if k = key then some v else lookupField rest key

/-- Model of the checked string type assertion on a map entry: the Go idiom
returns the empty string both when the key is absent, when the value is not a
string, and passes through an empty string value; in all three cases the
caller drops the document, so the empty result is the drop condition. -/
def getStrField (o : Obj) (key : Str) : Str :=
  match lookupField o key with
  | some (.str s) => s
  | _ => []

/-- Append an item under a key, models resourceMap indexing plus append:
existing keys keep their position, new keys are inserted at the end
(one possible Go map iteration order). -/
def mapAppendItem (m : ResourceMap) (key : Str) (item : Obj) : ResourceMap :=
  match m with
  | [] => [(key, [item])]
  | (k, vs) :: rest =>
    if k = key then (k, vs ++ [item]) :: rest
    else (k, vs) :: mapAppendItem rest key item

/-- makeResourceKey of cmd/main.go: lower-case the kind, append a trailing s
unless one is already present, replace slashes in the apiVersion with dashes,
join with a dash. -/
def makeResourceKey (apiVersion kind : Str) : Str :=
  let resource := goToLower kind
  let resource := if !goEndsWith resource (str "s") then resource ++ str "s" else resource
  goReplaceAll apiVersion '/' (str "-") ++ str "-" ++ resource

/-!
## Snapshot ingestion (processMustGatherFile)

The YAML unmarshaler itself is the external library collaborator; ingestion
functions take it as a parameter of type Str to Option Obj (returning none on
a parse failure or on a document that is not a mapping).
-/

/-- Body of the items loop of processMustGatherFile for a List document:
each array entry that is a mapping with nonempty apiVersion and kind strings
is keyed and appended; other entries are dropped individually. -/
def processListItems : List GoVal → ResourceMap → ResourceMap
  | [], m => m
  | item :: rest, m =>
    match item with
    | .obj itemMap =>
      let itemApiVersion := getStrField itemMap (str "apiVersion")
      let itemKind := getStrField itemMap (str "kind")
      if itemApiVersion ≠ [] ∧ itemKind ≠ [] then
        processListItems rest (mapAppendItem m (makeResourceKey itemApiVersion itemKind) itemMap)
      else
        processListItems rest m
    | _ => processListItems rest m

/-- Per-document body of processMustGatherFile after unmarshaling: drop the
document when apiVersion or kind is missing, not a string, or empty; unpack
List documents item by item without keying the wrapper; key and append
ordinary documents. -/
def processDoc (doc : Obj) (m : ResourceMap) : ResourceMap :=
  let apiVersion := getStrField doc (str "apiVersion")
  if apiVersion = [] then m
  else
    let kind := getStrField doc (str "kind")
    if kind = [] then m
    else if kind = str "List" then
      match lookupField doc (str "items") with
      | some (.arr items) => processListItems items m
      | _ => m
    else
      mapAppendItem m (makeResourceKey apiVersion kind) doc

/-- Per-candidate-document step of processMustGatherFile: trim, skip empty
and hash-leading documents, unmarshal (dropping parse failures), process. -/
def processRawDoc (parse : Str → Option Obj) (raw : Str) (m : ResourceMap) : ResourceMap :=
  let doc := goTrimSpace raw
  if doc = [] then m
  else if goStartsWith doc (str "#") then m
  else
    match parse doc with
    | none => m
    | some resource => processDoc resource m

/-- Document loop of processMustGatherFile over one file's contents: split on
the newline-dashes separator and fold the per-document step. -/
def processContent (parse : Str → Option Obj) (content : Str) (m : ResourceMap) : ResourceMap :=
  (goSplitDocs content).foldl (fun m raw => processRawDoc parse raw m) m

/-- processMustGatherFile of cmd/main.go: a read failure is returned as the
error with the map untouched; otherwise the contents are processed and the
function never fails. -/
def processMustGatherFile (parse : Str → Option Obj) (readResult : Except Str Str)
    (m : ResourceMap) : Except Str (ResourceMap) :=
  match readResult with
  | .error e => .error (str "failed to read file: " ++ e)
  | .ok content => .ok (processContent parse content m)

/-!
## Serializer (processMustGatherToSingleFile)

The YAML marshaler is the external library collaborator
(sigs.k8s.io/yaml routes through encoding/json, so object keys come out
sorted).  It is modelled here for the fragment the program produces: a List
wrapper whose items are rendered one mapping per block entry, object keys
sorted bytewise, scalar field values rendered plainly, nested collections
rendered in flow style down to a fixed depth.  The theorems about marker
extraction depend only on the line structure of this output, stated as
explicit hypotheses and discharged on concrete inputs.
-/

/-- Bytewise (code-point) lexicographic order on strings, the order
encoding/json sorts object keys in. -/
def strLe : Str → Str → Bool
  | [], _ => true
  | _ :: _, [] => false
  | a :: as, b :: bs =>
    if a.toNat < b.toNat then true
    else if b.toNat < a.toNat then false
    else strLe as bs

/-- Insertion into a key-sorted field list. -/
def insertField (kv : Str × GoVal) : List (Str × GoVal) → List (Str × GoVal)
  | [] => [kv]
  | kv2 :: rest =>
    if strLe kv.1 kv2.1 then kv :: kv2 :: rest else kv2 :: insertField kv rest

/-- Sort an object's fields by key (the JSON marshaling order). -/
def sortFields : List (Str × GoVal) → List (Str × GoVal)
  | [] => []
  | kv :: rest => insertField kv (sortFields rest)

/-- Insertion into a sorted string list. -/
def insertStr (x : Str) : List Str → List Str
  | [] => [x]
  | y :: ys => if strLe x y then x :: y :: ys else y :: insertStr x ys

/-- Bytewise sort of a string list (the sorted key order the specification
prescribes for single-file rendering). -/
def sortStrs : List Str → List Str
  | [] => []
  | x :: xs => insertStr x (sortStrs xs)

/-- Decimal rendering of a natural number. -/
def natStr (n : Nat) : Str := Nat.toDigits 10 n

/-- Decimal rendering of an integer. -/
def intStr (i : Int) : Str :=
  if i < 0 then '-' :: natStr i.natAbs else natStr i.natAbs

/-- Opening brace character, for flow-style object rendering. -/
def lbChar : Char := Char.ofNat 123

/-- Closing brace character, for flow-style object rendering. -/
def rbChar : Char := Char.ofNat 125

/-- One-line (flow) rendering of a field value in the marshaler model;
the fuel bounds the modelled nesting depth. -/
def flowStr : Nat → GoVal → Str
  | _, .str s => s
  | _, .num n => intStr n
  | _, .bool b => if b then str "true" else str "false"
  | _, .null => str "null"
  | 0, .arr _ => []
  | 0, .obj _ => []
  | fuel + 1, .arr vs =>
    str "[" ++ List.intercalate (str ", ") (vs.map (flowStr fuel)) ++ str "]"
  | fuel + 1, .obj fs =>
    lbChar :: List.intercalate (str ", ")
      ((sortFields fs).map (fun kv => kv.1 ++ str ": " ++ flowStr fuel kv.2)) ++ [rbChar]

/-- Rendering of one field on one line. -/
def yamlFieldStr (kv : Str × GoVal) : Str := kv.1 ++ str ": " ++ flowStr 32 kv.2

/-- Lines of one block-sequence entry for one item: first sorted field on the
dash line, remaining fields indented. -/
def yamlItemLines (o : Obj) : List Str :=
  match sortFields o with
  | [] => [str "- " ++ [lbChar, rbChar]]
  | kv :: rest => (str "- " ++ yamlFieldStr kv) :: rest.map (fun kv2 => str "  " ++ yamlFieldStr kv2)

/-- Lines of the marshaled List wrapper holding the given items. -/
def yamlListLines (items : List Obj) : List Str :=
  str "apiVersion: v1" :: str "items:" :: ((items.map yamlItemLines).flatten ++ [str "kind: List"])

/-- Join lines into a byte stream, each line newline-terminated. -/
def joinNL : List Str → Str
  | [] => []
  | l :: rest => l ++ '\n' :: joinNL rest

/-- Model of yaml.Marshal on the List wrapper the serializer builds. -/
def yamlMarshalList (items : List Obj) : Str := joinNL (yamlListLines items)

/-- One resource section of the single-file output: marker line, marshaled
List document, blank separator line, exactly as written by the loop of
processMustGatherToSingleFile. -/
def renderSection (key : Str) (items : List Obj) : Str :=
  str "--- # Resource: " ++ key ++ str "\n" ++ yamlMarshalList items ++ str "\n"

/-- Rendering loop of processMustGatherToSingleFile: iterate the resource map
in map-iteration order (the association-list order), skipping keys whose item
list is empty.  The source collects the keys from the map range and, despite
the comment announcing a sort, never sorts them. -/
def processMustGatherToSingleFile : ResourceMap → Str
  | [] => []
  | (key, items) :: rest =>
    (if items.isEmpty then [] else renderSection key items)
      ++ processMustGatherToSingleFile rest

/-- The single-file output, line by line: each emitted section is its marker
line, the marshaled body lines and a blank separator line.  Joining these
lines newline-terminated yields exactly the rendered byte stream. -/
def renderLines : ResourceMap → List Str
  | [] => []
  | (key, items) :: rest =>
    (if items.isEmpty then []
     else (str "--- # Resource: " ++ key) :: (yamlListLines items ++ [[]]))
      ++ renderLines rest

/-!
## Diff engine (parseResources, findUniqueResources, findCommonResources)
-/

/-- Per-line body of the parseResources loop: lines whose trimmed form starts
with the marker text contribute the trimmed text after the first colon. -/
def parseResourcesLine (line : Str) : Option Str :=
  if goStartsWith (goTrimSpace line) (str "--- # Resource:") then
    match goSplitN2 line (str ":") with
    | [_, p1] => some (goTrimSpace p1)
    | _ => none
  else none

/-- parseResources of cmd/main.go: scan the content line by line for
resource markers. -/
def parseResources (content : Str) : List Str :=
  (splitChar '\n' content).filterMap parseResourcesLine

/-- findUniqueResources of cmd/main.go: keep, in order, every element of the
first list that is not an element of the second (the membership map built
from the second list); no deduplication is performed. -/
def findUniqueResources : List Str → List Str → List Str
  | [], _ => []
  | item :: rest, set2 =>
    if containsString set2 item then findUniqueResources rest set2
    else item :: findUniqueResources rest set2

/-- Loop of findCommonResources with its seen set. -/
def findCommonAux (set2 : List Str) (seen : List Str) : List Str → List Str
  | [] => []
  | item :: rest =>
    if containsString set2 item ∧ ¬ containsString seen item then
      item :: findCommonAux set2 (item :: seen) rest
    else
      findCommonAux set2 seen rest

/-- findCommonResources of cmd/main.go: elements of the first list also in
the second, deduplicated by the seen map, in first-occurrence order. -/
def findCommonResources (set1 set2 : List Str) : List Str :=
  findCommonAux set2 [] set1

/-!
## Deprecation policy engine (getDeprecationRules, isDeprecated,
shouldSkipResource)
-/

/-- DeprecationRule of cmd/main.go. -/
structure DeprecationRule where
  groupVersion : Str
  resource : Str
  deprecatedFrom : Str
  replacementGV : Str
  replacementResource : Str
  isOpenShift : Bool

/-- ClusterVersion of cmd/main.go. -/
structure ClusterVersion where
  major : Int
  minor : Int
  isOpenShift : Bool
  openShiftMajor : Int
  openShiftMinor : Int

/-- getDeprecationRules of cmd/main.go: the fixed built-in rule set. -/
def getDeprecationRules : List DeprecationRule :=
  [ { groupVersion := str "v1", resource := str "componentstatuses",
      deprecatedFrom := str "1.19", replacementGV := [],
      replacementResource := [], isOpenShift := false },
    { groupVersion := str "v1", resource := str "endpoints",
      deprecatedFrom := str "1.33", replacementGV := str "discovery.k8s.io/v1",
      replacementResource := str "endpointslices", isOpenShift := false },
    { groupVersion := str "apps.openshift.io/v1", resource := str "deploymentconfigs",
      deprecatedFrom := str "4.14", replacementGV := [],
      replacementResource := [], isOpenShift := true } ]

/-- Rule loop of isDeprecated: skip rules that do not match the
group-version and resource name, skip platform rules on non-platform
clusters, skip rules whose version field does not parse, fire when the
relevant cluster version is lexicographically at or beyond the rule's
version, returning the replacement pair and message. -/
def isDeprecatedAux (resourceName groupVersion : Str) (cv : ClusterVersion) :
    List DeprecationRule → Bool × Str × Str × Str
  | [] => (false, [], [], [])
  | rule :: rest =>
    if rule.groupVersion ≠ groupVersion ∨ rule.resource ≠ resourceName then
      isDeprecatedAux resourceName groupVersion cv rest
    else if rule.isOpenShift ∧ ¬ cv.isOpenShift then
      isDeprecatedAux resourceName groupVersion cv rest
    else
      match splitChar '.' rule.deprecatedFrom with
      | p0 :: p1 :: _ =>
        match goAtoi p0, goAtoi p1 with
        | some depMajor, some depMinor =>
          let fires :=
            if rule.isOpenShift then
              cv.openShiftMajor > depMajor ∨
                (cv.openShiftMajor = depMajor ∧ cv.openShiftMinor ≥ depMinor)
            else
              cv.major > depMajor ∨ (cv.major = depMajor ∧ cv.minor ≥ depMinor)
          if fires then
            (true, rule.replacementGV, rule.replacementResource,
             if rule.replacementGV ≠ [] ∧ rule.replacementResource ≠ [] then
               str "Using " ++ rule.replacementGV ++ str "/" ++ rule.replacementResource
                 ++ str " instead of deprecated " ++ groupVersion ++ str "/" ++ resourceName
             else
               str "Skipping deprecated " ++ groupVersion ++ str "/" ++ resourceName
                 ++ str " (no replacement available)")
          else
            isDeprecatedAux resourceName groupVersion cv rest
        | _, _ => isDeprecatedAux resourceName groupVersion cv rest
      | _ => isDeprecatedAux resourceName groupVersion cv rest

/-- isDeprecated of cmd/main.go over a given rule set. -/
def isDeprecatedWith (rules : List DeprecationRule) (resourceName groupVersion : Str)
    (cv : ClusterVersion) : Bool × Str × Str × Str :=
  isDeprecatedAux resourceName groupVersion cv rules

/-- isDeprecated of cmd/main.go over the built-in rule set. -/
def isDeprecated (resourceName groupVersion : Str) (cv : ClusterVersion) :
    Bool × Str × Str × Str :=
  isDeprecatedWith getDeprecationRules resourceName groupVersion cv

/-- shouldSkipResource of cmd/main.go over a given rule set. -/
def shouldSkipResourceWith (rules : List DeprecationRule) (resourceName groupVersion : Str)
    (cv : ClusterVersion) : Bool × Str :=
  let d := isDeprecatedWith rules resourceName groupVersion cv
  if d.1 then (true, d.2.2.2) else (false, [])

/-- shouldSkipResource of cmd/main.go over the built-in rule set. -/
def shouldSkipResource (resourceName groupVersion : Str) (cv : ClusterVersion) : Bool × Str :=
  shouldSkipResourceWith getDeprecationRules resourceName groupVersion cv

/-!
## Live collection loop (collectResources, collectAllResourcesToSingleFile)

Discovery and the per-type fetch are external collaborators: discovery is a
result parameter, the fetch outcome an oracle from group-version and resource
name to success.  Both source functions run the identical filtering loop
(subresource skip, verbs check, deprecation skip when a cluster version was
detected, fetch with per-type error counting); the loop is modelled once.
The cluster-version parameter is the outcome of detectClusterVersion: none
models a failed detection, after which the source nils the version and
continues.
-/

/-- APIResource: the discovery fields the loop consults. -/
structure APIResource where
  name : Str
  verbs : List Str

/-- One group-version's discovered resource list. -/
structure ResourceList where
  groupVersion : Str
  apiResources : List APIResource

/-- Counters and written-output trace of one collection run. -/
structure CollectState where
  collectedTypes : List (Str × Str)
  collected : Nat
  errors : Nat
  skipped : Nat

/-- The starting counters. -/
def initialState : CollectState := ⟨[], 0, 0, 0⟩

/-- The deprecation consultation of the loop: only performed when a cluster
version was detected. -/
def skipDecision (rules : List DeprecationRule) (cv : Option ClusterVersion)
    (gv : Str) (r : APIResource) : Bool :=
  match cv with
  | none => false
  | some v => (shouldSkipResourceWith rules r.name gv v).1

/-- Per-resource body of the collection loop: skip subresources, skip types
without list and get verbs, skip (and count) deprecated types, then fetch,
counting success or error and recording the collected type. -/
def collectStep (rules : List DeprecationRule) (cv : Option ClusterVersion)
    (fetch : Str → Str → Bool) (gv : Str) (r : APIResource) (s : CollectState) : CollectState :=
  if goContains r.name (str "/") then s
  else if !(containsString r.verbs (str "list") && containsString r.verbs (str "get")) then s
  else if skipDecision rules cv gv r then
    { s with skipped := s.skipped + 1 }
  else if fetch gv r.name then
    { s with collectedTypes := s.collectedTypes ++ [(gv, r.name)],
             collected := s.collected + 1 }
  else
    { s with errors := s.errors + 1 }

/-- Inner loop over one group-version's resources. -/
def collectAPIResources (rules : List DeprecationRule) (cv : Option ClusterVersion)
    (fetch : Str → Str → Bool) (gv : Str) : List APIResource → CollectState → CollectState
  | [], s => s
  | r :: rest, s =>
    collectAPIResources rules cv fetch gv rest (collectStep rules cv fetch gv r s)

/-- Outer loop over the discovered resource lists. -/
def collectLists (rules : List DeprecationRule) (cv : Option ClusterVersion)
    (fetch : Str → Str → Bool) : List ResourceList → CollectState → CollectState
  | [], s => s
  | rl :: rest, s =>
    collectLists rules cv fetch rest
      (collectAPIResources rules cv fetch rl.groupVersion rl.apiResources s)

/-- collectResources and collectAllResourcesToSingleFile of cmd/main.go
after version detection: abort only when discovery itself failed; otherwise
run the loop over every discovered type and return success regardless of
per-type fetch failures. -/
def collectResources (rules : List DeprecationRule) (cv : Option ClusterVersion)
    (fetch : Str → Str → Bool) (discovered : Except Str (List ResourceList)) :
    Except Str CollectState :=
  match discovered with
  | .error e => .error (str "failed to discover API resources: " ++ e)
  | .ok ls => .ok (collectLists rules cv fetch ls initialState)

/-- The basic (version-independent) eligibility filter of the loop. -/
def basicEligible (r : APIResource) : Bool :=
  !goContains r.name (str "/")
    && (containsString r.verbs (str "list") && containsString r.verbs (str "get"))

/-- Full eligibility: basic filter plus the deprecation decision. -/
def eligible (rules : List DeprecationRule) (cv : Option ClusterVersion)
    (gv : Str) (r : APIResource) : Bool :=
  basicEligible r && !skipDecision rules cv gv r

/-- The types the loop attempts to fetch, in discovery order. -/
def eligibleTypes (rules : List DeprecationRule) (cv : Option ClusterVersion) :
    List ResourceList → List (Str × Str)
  | [] => []
  | rl :: rest =>
    (rl.apiResources.filter (eligible rules cv rl.groupVersion)).map
        (fun r => (rl.groupVersion, r.name))
      ++ eligibleTypes rules cv rest

/-- The types the deprecation filter skips, in discovery order. -/
def skippedTypes (rules : List DeprecationRule) (cv : Option ClusterVersion)
    (gv : Str) (rs : List APIResource) : List APIResource :=
  rs.filter (fun r => basicEligible r && skipDecision rules cv gv r)

/-- Total number of types the deprecation filter skips across all lists. -/
def skippedCount (rules : List DeprecationRule) (cv : Option ClusterVersion) :
    List ResourceList → Nat
  | [] => 0
  | rl :: rest =>
    (skippedTypes rules cv rl.groupVersion rl.apiResources).length
      + skippedCount rules cv rest

/-- The types passing only the version-independent filters: what the loop
attempts when no deprecation filtering happens at all. -/
def baseTypes : List ResourceList → List (Str × Str)
  | [] => []
  | rl :: rest =>
    (rl.apiResources.filter basicEligible).map (fun r => (rl.groupVersion, r.name))
      ++ baseTypes rest

/-!
## Well-formedness predicates for the marker round trip

The marker line and the diff engine's extractor are contractually coupled:
the extractor recovers a key from its marker line exactly when the key spans
no line break and carries no surrounding whitespace, and recovers no marker
from the marshaled body exactly when no body line trims to marker form.
Both conditions are decidable and hold for every key the program builds from
ASCII group-versions and kinds.
-/

/-- A key that survives the marker round trip: no newline, no leading and no
trailing whitespace. -/
def keyOk (k : Str) : Prop :=
  '\n' ∉ k ∧ k.dropWhile isGoSpace = k ∧ k.reverse.dropWhile isGoSpace = k.reverse

instance (k : Str) : Decidable (keyOk k) :=
  inferInstanceAs (Decidable (('\n' ∉ k) ∧ k.dropWhile isGoSpace = k
    ∧ k.reverse.dropWhile isGoSpace = k.reverse))

/-- Items whose marshaled form keeps out of the marker micro-format: every
body line is newline-free and is not read back as a marker. -/
def bodyOk (items : List Obj) : Prop :=
  ∀ l ∈ yamlListLines items, '\n' ∉ l ∧ parseResourcesLine l = none

instance (items : List Obj) : Decidable (bodyOk items) :=
  inferInstanceAs (Decidable (∀ l ∈ yamlListLines items, '\n' ∉ l ∧ parseResourcesLine l = none))

/-!
## Concrete fixtures used by the claim theorems
-/

/-- A minimal pod document. -/
def podFix : Obj := [(str "apiVersion", GoVal.str (str "v1")), (str "kind", GoVal.str (str "Pod"))]

/-- A minimal service document. -/
def svcFix : Obj :=
  [(str "apiVersion", GoVal.str (str "v1")), (str "kind", GoVal.str (str "Service"))]

/-- An inventory written with services ahead of pods: one legal map
iteration order for the two-key resource map. -/
def invSvcFirst : ResourceMap := [(str "v1-services", [svcFix]), (str "v1-pods", [podFix])]

/-- The same two-key inventory enumerated pods first. -/
def invPodFirst : ResourceMap := [(str "v1-pods", [podFix]), (str "v1-services", [svcFix])]

/-- First pod item of the List-document fixture. -/
def podFix1 : Obj := [(str "apiVersion", GoVal.str (str "v1")), (str "kind", GoVal.str (str "Pod")),
  (str "metadata", GoVal.obj [(str "name", GoVal.str (str "p1"))])]

/-- Second pod item of the List-document fixture. -/
def podFix2 : Obj := [(str "apiVersion", GoVal.str (str "v1")), (str "kind", GoVal.str (str "Pod")),
  (str "metadata", GoVal.obj [(str "name", GoVal.str (str "p2"))])]

/-- The standalone service document of the must-gather fixture. -/
def svcFixDoc : Obj := [(str "apiVersion", GoVal.str (str "v1")),
  (str "kind", GoVal.str (str "Service")),
  (str "metadata", GoVal.obj [(str "name", GoVal.str (str "s1"))])]

/-- The List document wrapping the two pods. -/
def listFixDoc : Obj := [(str "apiVersion", GoVal.str (str "v1")),
  (str "kind", GoVal.str (str "List")),
  (str "items", GoVal.arr [GoVal.obj podFix1, GoVal.obj podFix2])]

/-- Text of the List document in the fixture file. -/
def listFixText : Str := str "apiVersion: v1\nkind: List\nitems:\n- apiVersion: v1\n  kind: Pod\n  metadata:\n    name: p1\n- apiVersion: v1\n  kind: Pod\n  metadata:\n    name: p2"

/-- Text of the service document in the fixture file. -/
def svcFixText : Str := str "apiVersion: v1\nkind: Service\nmetadata:\n  name: s1"

/-- The must-gather fixture file: one List document with two pod items,
then one standalone service document. -/
def mgFixContent : Str := listFixText ++ str "\n---\n" ++ svcFixText

/-- The external YAML unmarshaler restricted to the fixture's two documents
(Modelled from the spec: the parse step is delegated to the external YAML
library, which maps these document texts to these mappings). -/
def parseFix (s : Str) : Option Obj :=
  if s = listFixText then some listFixDoc
  else if s = svcFixText then some svcFixDoc
  else none

/-- A List document whose items array carries, between the two pods, an
entry missing apiVersion and an entry that is not a mapping. -/
def listFixBad : Obj := [(str "apiVersion", GoVal.str (str "v1")),
  (str "kind", GoVal.str (str "List")),
  (str "items", GoVal.arr [GoVal.obj podFix1, GoVal.obj [(str "kind", GoVal.str (str "Pod"))],
    GoVal.str (str "junk"), GoVal.obj podFix2])]

/-- A document with an apiVersion but no kind field. -/
def noKindDoc : Obj := [(str "apiVersion", GoVal.str (str "v1"))]

/-- A candidate document whose first character is a comment marker but whose
remainder is a parseable pod manifest. -/
def commentLedDoc : Str := str "# note\napiVersion: v1\nkind: Pod"

/-- A minimal config-map document. -/
def cmFix : Obj :=
  [(str "apiVersion", GoVal.str (str "v1")), (str "kind", GoVal.str (str "ConfigMap"))]

/-- A two-key inventory whose map-iteration order is not the sorted key
order. -/
def invUnsorted : ResourceMap := [(str "v1-pods", [podFix]), (str "v1-configmaps", [cmFix])]

/-- A single-key inventory used to exercise the round trip. -/
def invSingle : ResourceMap := [(str "v1-pods", [podFix])]

/-!
## Claim theorems
-/

/-- C1: the single-file renderer does not emit sections in sorted key order:
for the two-key inventory enumerated services first (a legal Go map range
order), the markers come out services before pods while the sorted order is
pods before services; and the two enumeration orders of the same inventory
render to different bytes, so two renderings of the same inventory need not
be byte-identical.  This exhibits the missing sort in
processMustGatherToSingleFile, whose own comment announces sorting. -/
theorem c1_single_file_sections_not_sorted :
    parseResources (processMustGatherToSingleFile invSvcFirst)
        = [str "v1-services", str "v1-pods"]
      ∧ sortStrs [str "v1-services", str "v1-pods"] = [str "v1-pods", str "v1-services"]
      ∧ invSvcFirst.Perm invPodFirst
      ∧ processMustGatherToSingleFile invSvcFirst ≠ processMustGatherToSingleFile invPodFirst := by
  refine ⟨by decide, by decide, ?_, by decide⟩
  exact List.Perm.swap _ _ _

/-- C5: ingesting the fixture file holding one List document with two pod
items plus one standalone service document yields exactly the two keys, the
pod key with both items and the service key with one, the List wrapper
itself unkeyed; and an items entry missing apiVersion, or one that is not a
mapping, is dropped individually without affecting the other entries. -/
theorem c5_list_ingestion :
    processContent parseFix mgFixContent []
        = [(str "v1-pods", [podFix1, podFix2]), (str "v1-services", [svcFixDoc])]
      ∧ processDoc listFixBad [] = [(str "v1-pods", [podFix1, podFix2])] :=
  ⟨rfl, rfl⟩

/-- C8: a parsed document whose kind field (or apiVersion field) is missing,
not a string, or empty is dropped: the resource map is unchanged; and
processing a readable file never returns an error. -/
theorem c8_missing_fields_dropped (doc : Obj) (m : ResourceMap)
    (h : getStrField doc (str "kind") = [] ∨ getStrField doc (str "apiVersion") = []) :
    processDoc doc m = m
      ∧ ∀ (parse : Str → Option Obj) (content : Str) (m0 : ResourceMap),
          ∃ m1, processMustGatherFile parse (.ok content) m0 = .ok m1 := by
  refine ⟨?_, fun parse content m0 => ⟨_, rfl⟩⟩
  by_cases hav : getStrField doc (str "apiVersion") = []
  · simp [processDoc, hav]
  · have hkind : getStrField doc (str "kind") = [] := h.resolve_right hav
    simp [processDoc, hav, hkind]

/-- C8 witness: a concrete document with apiVersion but no kind leaves a
concrete nonempty resource map unchanged. -/
theorem c8_missing_fields_dropped_witness :
    (getStrField noKindDoc (str "kind") = [] ∨ getStrField noKindDoc (str "apiVersion") = [])
      ∧ processDoc noKindDoc invSingle = invSingle :=
  ⟨Or.inl (by decide), (c8_missing_fields_dropped noKindDoc invSingle (Or.inl (by decide))).1⟩

/-- C10: a candidate document whose trimmed text begins with the comment
character is dropped whole, whatever the unmarshaler would have produced for
it: the comment test looks only at the first character. -/
theorem c10_comment_skip (parse : Str → Option Obj) (raw : Str) (m : ResourceMap)
    (h : goStartsWith (goTrimSpace raw) (str "#") = true) :
    processRawDoc parse raw m = m := by
  by_cases he : goTrimSpace raw = []
  · simp [processRawDoc, he]
  · simp [processRawDoc, he, h]

/-- C10 witness: the comment-led document that still carries a parseable pod
manifest is dropped even under an unmarshaler that parses it successfully. -/
theorem c10_comment_skip_witness :
    goStartsWith (goTrimSpace commentLedDoc) (str "#") = true
      ∧ processRawDoc (fun _ => some podFix) commentLedDoc invSingle = invSingle :=
  ⟨by decide, c10_comment_skip (fun _ => some podFix) commentLedDoc invSingle (by decide)⟩

/-- C9 counterexample: with both inputs empty, makeResourceKey returns the
two-character key dash-s, not the bare separator the claim states. -/
theorem c9_empty_inputs_cex : makeResourceKey [] [] ≠ str "-" := by decide

/-- C9 amended: makeResourceKey is total and pure on all string inputs and
always yields a key containing the separator; for both inputs empty the key
is dash-s, the separator followed by the s the pluralizer appends to the
empty kind. -/
theorem c9_key_total_amended :
    makeResourceKey [] [] = str "-s"
      ∧ ∀ apiVersion kind : Str, '-' ∈ makeResourceKey apiVersion kind := by
  refine ⟨by decide, fun apiVersion kind => ?_⟩
  simp only [makeResourceKey, List.mem_append]
  exact Or.inl (Or.inr (by decide))

/-- The slice-contains helper decides membership. -/
theorem containsString_iff (l : List Str) (x : Str) : containsString l x = true ↔ x ∈ l := by
  induction l with
  | nil => simp [containsString]
  | cons s rest ih =>
    by_cases hs : s = x
    · simp [containsString, hs]
    · simp [containsString, hs, ih, Ne.symm hs]

/-- Occurrence counts of the only-in-first list: names in the second stream
are removed entirely, all other names keep their multiplicity. -/
theorem count_findUniqueResources (s1 s2 : List Str) (x : Str) :
    (findUniqueResources s1 s2).count x
      = if containsString s2 x then 0 else s1.count x := by
  induction s1 with
  | nil => simp [findUniqueResources]
  | cons a rest ih =>
    by_cases ha : containsString s2 a
    · rw [findUniqueResources, if_pos ha, ih]
      by_cases hx : x = a
      · subst hx
        simp [ha]
      · simp [List.count_cons, hx]
    · rw [findUniqueResources, if_neg ha]
      by_cases hx : x = a
      · subst hx
        have hca : containsString s2 x = false := by simpa using ha
        simp [List.count_cons, ih, hca]
      · simp [List.count_cons, hx, ih]

/-- Membership in the common loop with an arbitrary seen set. -/
theorem mem_findCommonAux (set2 seen l : List Str) (x : Str) :
    x ∈ findCommonAux set2 seen l
      ↔ x ∈ l ∧ containsString set2 x = true ∧ containsString seen x = false := by
  induction l generalizing seen with
  | nil => simp [findCommonAux]
  | cons item rest ih =>
    by_cases hc : containsString set2 item ∧ ¬ containsString seen item
    · rw [findCommonAux, if_pos hc, List.mem_cons, ih]
      constructor
      · rintro (hx | ⟨h1, h2, h3⟩)
        · subst hx
          exact ⟨List.mem_cons_self _ _, hc.1, by simpa using hc.2⟩
        · refine ⟨List.mem_cons_of_mem _ h1, h2, ?_⟩
          simp only [containsString] at h3
          by_cases hix : item = x
          · rw [if_pos hix] at h3
            exact absurd h3 (by simp)
          · rwa [if_neg hix] at h3
      · rintro ⟨h1, h2, h3⟩
        by_cases hx : x = item
        · exact Or.inl hx
        · rcases List.mem_cons.mp h1 with h | h1'
          · exact absurd h hx
          · refine Or.inr ⟨h1', h2, ?_⟩
            simp only [containsString]
            rw [if_neg (fun h => hx h.symm)]
            exact h3
    · rw [findCommonAux, if_neg hc, ih]
      constructor
      · rintro ⟨h1, h2, h3⟩
        exact ⟨List.mem_cons_of_mem _ h1, h2, h3⟩
      · rintro ⟨h1, h2, h3⟩
        rcases List.mem_cons.mp h1 with hx | h1'
        · subst hx
          exact absurd ⟨h2, by simp [h3]⟩ hc
        · exact ⟨h1', h2, h3⟩

/-- The common loop never repeats a name. -/
theorem nodup_findCommonAux (set2 seen l : List Str) :
    (findCommonAux set2 seen l).Nodup := by
  induction l generalizing seen with
  | nil => simp [findCommonAux]
  | cons item rest ih =>
    by_cases hc : containsString set2 item ∧ ¬ containsString seen item
    · rw [findCommonAux, if_pos hc]
      refine List.nodup_cons.mpr ⟨fun hmem => ?_, ih _⟩
      have := (mem_findCommonAux set2 (item :: seen) rest item).mp hmem
      simp [containsString] at this
    · rw [findCommonAux, if_neg hc]
      exact ih _

/-- C3 counterexample: a name occurring twice in the first stream and absent
from the second appears twice in the only-in-first list: findUniqueResources
does not de-duplicate. -/
theorem c3_only_in_lists_not_deduped_cex :
    findUniqueResources [str "a", str "a"] [] = [str "a", str "a"]
      ∧ ¬ (findUniqueResources [str "a", str "a"] []).Nodup := by
  refine ⟨by decide, ?_⟩
  decide

/-- C4: the built-in rule for endpoints in group-version v1 fires at
Kubernetes 1.33 with the endpointslices replacement named in the message and
does not fire at 1.32; and, for any cluster version record, the two built-in
non-platform rules fire exactly when the Kubernetes major and minor are
lexicographically at or beyond the rule's deprecated-from pair. -/
theorem c4_deprecation_rules :
    shouldSkipResource (str "endpoints") (str "v1") ⟨1, 33, false, 0, 0⟩
        = (true, str "Using discovery.k8s.io/v1/endpointslices instead of deprecated v1/endpoints")
      ∧ isDeprecated (str "endpoints") (str "v1") ⟨1, 33, false, 0, 0⟩
        = (true, str "discovery.k8s.io/v1", str "endpointslices",
           str "Using discovery.k8s.io/v1/endpointslices instead of deprecated v1/endpoints")
      ∧ shouldSkipResource (str "endpoints") (str "v1") ⟨1, 32, false, 0, 0⟩ = (false, [])
      ∧ (∀ (M m : Int) (os : Bool) (oM om : Int),
          (isDeprecated (str "endpoints") (str "v1") ⟨M, m, os, oM, om⟩).1 = true
            ↔ (1 < M ∨ (M = 1 ∧ 33 ≤ m)))
      ∧ (∀ (M m : Int) (os : Bool) (oM om : Int),
          (isDeprecated (str "componentstatuses") (str "v1") ⟨M, m, os, oM, om⟩).1 = true
            ↔ (1 < M ∨ (M = 1 ∧ 19 ≤ m))) := by
  refine ⟨by decide, by decide, by decide, ?_, ?_⟩
  · intro M m os oM om
    have hs : splitChar '.' (str "1.33") = [str "1", str "33"] := by decide
    have ha1 : goAtoi (str "1") = some 1 := by decide
    have ha33 : goAtoi (str "33") = some 33 := by decide
    have hr1 : (str "v1" : Str) ≠ str "v1" ∨ (str "componentstatuses" : Str) ≠ str "endpoints" :=
      Or.inr (by decide)
    have hr2 : ¬ ((str "v1" : Str) ≠ str "v1" ∨ (str "endpoints" : Str) ≠ str "endpoints") := by
      decide
    have hr3 : (str "apps.openshift.io/v1" : Str) ≠ str "v1" ∨
        (str "deploymentconfigs" : Str) ≠ str "endpoints" := Or.inl (by decide)
    simp only [isDeprecated, isDeprecatedWith, getDeprecationRules, isDeprecatedAux]
    rw [if_pos hr1, if_neg hr2]
    simp only [hs, ha1, ha33]
    simp [hr3]
    split_ifs with hf <;> simp [hf]
  · intro M m os oM om
    have hs : splitChar '.' (str "1.19") = [str "1", str "19"] := by decide
    have ha1 : goAtoi (str "1") = some 1 := by decide
    have ha19 : goAtoi (str "19") = some 19 := by decide
    have hr1 : ¬ ((str "v1" : Str) ≠ str "v1" ∨
        (str "componentstatuses" : Str) ≠ str "componentstatuses") := by decide
    have e1 : (str "endpoints" : Str) ≠ str "componentstatuses" := by decide
    have e2 : (str "apps.openshift.io/v1" : Str) ≠ str "v1" := by decide
    simp only [isDeprecated, isDeprecatedWith, getDeprecationRules, isDeprecatedAux]
    rw [if_neg hr1]
    simp only [hs, ha1, ha19]
    simp [e1, e2]
    split_ifs with hf <;> simp [hf]

/-- C3 amended: the diff lists follow set semantics on membership — the
only-in lists hold exactly the names of one stream absent from the other,
and the common list holds exactly the shared names, de-duplicated — but
only the common list is de-duplicated: a name repeated in one stream keeps
its full multiplicity in that stream's only-in list. -/
theorem c3_diff_set_semantics (s1 s2 : List Str) :
    (∀ x, (findUniqueResources s1 s2).count x
        = if containsString s2 x then 0 else s1.count x)
      ∧ (∀ x, x ∈ findUniqueResources s1 s2 ↔ x ∈ s1 ∧ x ∉ s2)
      ∧ (∀ x, x ∈ findUniqueResources s2 s1 ↔ x ∈ s2 ∧ x ∉ s1)
      ∧ (findCommonResources s1 s2).Nodup
      ∧ (∀ x, x ∈ findCommonResources s1 s2 ↔ x ∈ s1 ∧ x ∈ s2) := by
  have hmem : ∀ (t1 t2 : List Str) (x : Str),
      x ∈ findUniqueResources t1 t2 ↔ x ∈ t1 ∧ x ∉ t2 := by
    intro t1 t2 x
    constructor
    · intro hx
      have hpos : 0 < (findUniqueResources t1 t2).count x := List.count_pos_iff.mpr hx
      rw [count_findUniqueResources] at hpos
      by_cases hc : containsString t2 x
      · simp [hc] at hpos
      · rw [if_neg hc] at hpos
        exact ⟨List.count_pos_iff.mp hpos, fun hmem2 => hc ((containsString_iff _ _).mpr hmem2)⟩
    · rintro ⟨h1, h2⟩
      have hc : ¬ containsString t2 x = true :=
        fun hcc => h2 ((containsString_iff _ _).mp hcc)
      apply List.count_pos_iff.mp
      rw [count_findUniqueResources, if_neg hc]
      exact List.count_pos_iff.mpr h1
  refine ⟨count_findUniqueResources s1 s2, hmem s1 s2, hmem s2 s1,
    nodup_findCommonAux s2 [] s1, fun x => ?_⟩
  rw [findCommonResources, mem_findCommonAux]
  simp [containsString_iff, containsString]

/-- Joining lines distributes over appending line lists. -/
theorem joinNL_append (a b : List Str) : joinNL (a ++ b) = joinNL a ++ joinNL b := by
  induction a with
  | nil => rfl
  | cons l rest ih => simp [joinNL, ih]

/-- The rendered single-file stream is its line list, newline-joined. -/
theorem render_eq_joinNL (m : ResourceMap) :
    processMustGatherToSingleFile m = joinNL (renderLines m) := by
  induction m with
  | nil => rfl
  | cons kv rest ih =>
    obtain ⟨key, items⟩ := kv
    by_cases he : items.isEmpty
    · simp [processMustGatherToSingleFile, renderLines, he, ih]
    · simp only [processMustGatherToSingleFile, renderLines, he, if_neg, joinNL_append, ih,
        renderSection, yamlMarshalList]
      have hnl : str "\n" = ['\n'] := rfl
      simp [joinNL, joinNL_append, List.append_assoc, hnl]

/-- Splitting at a separator character cuts exactly at its first occurrence. -/
theorem splitChar_append_sep (c : Char) (xs ys : Str) (h : c ∉ xs) :
    splitChar c (xs ++ c :: ys) = xs :: splitChar c ys := by
  induction xs with
  | nil => simp [splitChar]
  | cons x xs ih =>
    have hx : x ≠ c := fun hh => h (hh ▸ List.mem_cons_self x xs)
    have hxs : c ∉ xs := fun hh => h (List.mem_cons_of_mem _ hh)
    simp only [List.cons_append, splitChar, if_neg hx]
    rw [show xs.append (c :: ys) = xs ++ c :: ys from rfl, ih hxs]

/-- Newline-splitting a newline-joined line list recovers the lines, plus the
empty part after the final newline. -/
theorem splitChar_joinNL (ls : List Str) (h : ∀ l ∈ ls, '\n' ∉ l) :
    splitChar '\n' (joinNL ls) = ls ++ [[]] := by
  induction ls with
  | nil => rfl
  | cons l rest ih =>
    have hl : '\n' ∉ l := h l (List.mem_cons_self _ _)
    have hrest : ∀ x ∈ rest, '\n' ∉ x := fun x hx => h x (List.mem_cons_of_mem _ hx)
    simp only [joinNL]
    rw [splitChar_append_sep '\n' l (joinNL rest) hl, ih hrest]
    rfl

/-- Appending to a left-trim-stable nonempty string stays left-trim-stable. -/
theorem dropWhile_append_stable (p : Char → Bool) (xs ys : Str)
    (h : xs.dropWhile p = xs) (hne : xs ≠ []) :
    (xs ++ ys).dropWhile p = xs ++ ys := by
  cases xs with
  | nil => exact absurd rfl hne
  | cons x t =>
    have hx : ¬ p x = true := by
      intro hp
      rw [List.dropWhile_cons, if_pos hp] at h
      have hlen := (List.dropWhile_suffix (l := t) p).length_le
      have := congrArg List.length h
      simp at this
      omega
    rw [List.cons_append, List.dropWhile_cons, if_neg hx]

/-- A string is a prefix of itself followed by anything. -/
theorem isPrefixOf_self_append (xs ys : Str) : xs.isPrefixOf (xs ++ ys) = true := by
  induction xs with
  | nil => simp [List.isPrefixOf]
  | cons x t ih => simp [List.isPrefixOf, ih]

/-- The SplitN scanner cuts at the first occurrence of a one-character
separator. -/
theorem goSplitFirst_first_sep (s0 : Char) (xs ys cur : Str) (h : s0 ∉ xs) :
    goSplitFirst s0 [] (xs ++ s0 :: ys) cur = [cur.reverse ++ xs, ys] := by
  induction xs generalizing cur with
  | nil => simp [goSplitFirst, List.isPrefixOf]
  | cons x t ih =>
    have hx : x ≠ s0 := fun hh => h (hh ▸ List.mem_cons_self x t)
    have ht : s0 ∉ t := fun hh => h (List.mem_cons_of_mem _ hh)
    rw [List.cons_append, goSplitFirst, if_neg (fun hc => hx hc.1), ih (x :: cur) ht]
    simp

/-- Trimming a trim-stable string with one leading space recovers it. -/
theorem goTrimSpace_cons_space (k : Str) (h1 : k.dropWhile isGoSpace = k)
    (h2 : k.reverse.dropWhile isGoSpace = k.reverse) :
    goTrimSpace (' ' :: k) = k := by
  simp only [goTrimSpace, List.dropWhile_cons]
  rw [if_pos (by decide), h1, h2, List.reverse_reverse]

/-- The extractor reads a well-formed key back off its marker line. -/
theorem parseResourcesLine_marker (k : Str) (hk : keyOk k) :
    parseResourcesLine (str "--- # Resource: " ++ k) = some k := by
  by_cases hek : k = []
  · subst hek
    decide
  · obtain ⟨hnl, h1, h2⟩ := hk
    have htrim : goTrimSpace (str "--- # Resource: " ++ k) = str "--- # Resource: " ++ k := by
      unfold goTrimSpace
      rw [dropWhile_append_stable isGoSpace (str "--- # Resource: ") k (by decide) (by decide),
        List.reverse_append,
        dropWhile_append_stable isGoSpace k.reverse (str "--- # Resource: ").reverse h2
          (by simpa using hek),
        List.reverse_append, List.reverse_reverse, List.reverse_reverse]
    have hstart : goStartsWith (goTrimSpace (str "--- # Resource: " ++ k))
        (str "--- # Resource:") = true := by
      rw [htrim, show str "--- # Resource: " ++ k = str "--- # Resource:" ++ (' ' :: k) from rfl,
        goStartsWith]
      exact isPrefixOf_self_append _ _
    simp only [parseResourcesLine]
    rw [if_pos hstart,
      show goSplitN2 (str "--- # Resource: " ++ k) (str ":")
        = goSplitFirst ':' [] (str "--- # Resource" ++ ':' :: (' ' :: k)) [] from rfl,
      goSplitFirst_first_sep ':' (str "--- # Resource") (' ' :: k) [] (by decide)]
    simp only [List.reverse_nil, List.nil_append]
    rw [goTrimSpace_cons_space k h1 h2]

/-- Rendered lines of a well-formed inventory contain no newline. -/
theorem renderLines_no_newline (inv : ResourceMap)
    (hkeys : ∀ kv ∈ inv, keyOk kv.1)
    (hbodies : ∀ kv ∈ inv, bodyOk kv.2) :
    ∀ l ∈ renderLines inv, '\n' ∉ l := by
  revert hkeys hbodies
  induction inv with
  | nil => intro _ _; simp [renderLines]
  | cons kv rest ih =>
    intro hkeys hbodies
    obtain ⟨key, items⟩ := kv
    intro l hl
    rw [renderLines] at hl
    rcases List.mem_append.mp hl with hl | hl
    · by_cases he : items.isEmpty
      · simp [he] at hl
      · rw [if_neg he] at hl
        rcases List.mem_cons.mp hl with hl | hl
        · subst hl
          have hk := (hkeys _ (List.mem_cons_self _ _)).1
          intro hmem
          rcases List.mem_append.mp hmem with hm | hm
          · exact absurd hm (by decide)
          · exact hk hm
        · rcases List.mem_append.mp hl with hl | hl
          · exact ((hbodies _ (List.mem_cons_self _ _)) l hl).1
          · simp only [List.mem_singleton] at hl
            subst hl
            simp
    · exact ih (fun x h => hkeys x (List.mem_cons_of_mem _ h))
        (fun x h => hbodies x (List.mem_cons_of_mem _ h)) l hl

/-- Scanning the rendered lines yields exactly the keys of the sections that
were emitted, in emission order. -/
theorem filterMap_renderLines (inv : ResourceMap)
    (hkeys : ∀ kv ∈ inv, keyOk kv.1)
    (hbodies : ∀ kv ∈ inv, bodyOk kv.2) :
    List.filterMap parseResourcesLine (renderLines inv)
      = (inv.filter (fun kv => !kv.2.isEmpty)).map Prod.fst := by
  revert hkeys hbodies
  induction inv with
  | nil => intro _ _; simp [renderLines]
  | cons kv rest ih =>
    intro hkeys hbodies
    obtain ⟨key, items⟩ := kv
    rw [renderLines, List.filterMap_append,
      ih (fun x h => hkeys x (List.mem_cons_of_mem _ h))
        (fun x h => hbodies x (List.mem_cons_of_mem _ h))]
    by_cases he : items.isEmpty
    · simp [he, List.filter_cons]
    · have hm := parseResourcesLine_marker key (hkeys _ (List.mem_cons_self _ _))
      have hbody : List.filterMap parseResourcesLine (yamlListLines items ++ [[]]) = [] := by
        apply List.filterMap_eq_nil_iff.mpr
        intro l hl
        rcases List.mem_append.mp hl with hl | hl
        · exact ((hbodies _ (List.mem_cons_self _ _)) l hl).2
        · simp only [List.mem_singleton] at hl
          subst hl
          decide
      rw [if_neg he, List.filterMap_cons, hm, hbody]
      simp [List.filter_cons, he]

/-- C2 counterexample: for the two-key inventory enumerated pods first, the
extractor applied to the rendered stream does not return the sorted key set:
the markers come back in map-iteration order, not sorted order. -/
theorem c2_sorted_roundtrip_cex :
    parseResources (processMustGatherToSingleFile invUnsorted)
      ≠ sortStrs ((invUnsorted.filter (fun kv => !kv.2.isEmpty)).map Prod.fst) := by
  decide

/-- C2 amended: serializing an inventory and feeding the rendered text to the
diff engine's marker extractor yields exactly the keys holding at least one
item, no markers gained or lost, in the inventory's map-iteration order
rather than sorted order — for keys free of newlines and surrounding
whitespace and items whose marshaled lines do not themselves read back as
markers. -/
theorem c2_roundtrip_map_order (inv : ResourceMap)
    (hkeys : ∀ kv ∈ inv, keyOk kv.1)
    (hbodies : ∀ kv ∈ inv, bodyOk kv.2) :
    parseResources (processMustGatherToSingleFile inv)
      = (inv.filter (fun kv => !kv.2.isEmpty)).map Prod.fst := by
  rw [render_eq_joinNL]
  simp only [parseResources]
  rw [splitChar_joinNL _ (renderLines_no_newline inv hkeys hbodies),
    List.filterMap_append, filterMap_renderLines inv hkeys hbodies]
  simp [show List.filterMap parseResourcesLine [[]] = [] from by decide]

/-- C2 witness: the two-key pods-then-configmaps inventory satisfies both
well-formedness hypotheses and round-trips to its keys in map order. -/
theorem c2_roundtrip_map_order_witness :
    (∀ kv ∈ invUnsorted, keyOk kv.1) ∧ (∀ kv ∈ invUnsorted, bodyOk kv.2)
      ∧ parseResources (processMustGatherToSingleFile invUnsorted)
          = [str "v1-pods", str "v1-configmaps"] :=
  ⟨by decide, by decide,
    (c2_roundtrip_map_order invUnsorted (by decide) (by decide)).trans (by decide)⟩

/-- Closed form of the inner collection loop: collected types are the
eligible types passing the fetch, counters accumulate the fetch successes,
fetch failures and deprecation skips. -/
theorem collectAPIResources_spec (rules : List DeprecationRule) (cv : Option ClusterVersion)
    (fetch : Str → Str → Bool) (gv : Str) (rs : List APIResource) (s : CollectState) :
    collectAPIResources rules cv fetch gv rs s =
      { collectedTypes := s.collectedTypes ++
          ((rs.filter (eligible rules cv gv)).map (fun r => (gv, r.name))).filter
            (fun t => fetch t.1 t.2),
        collected := s.collected +
          (((rs.filter (eligible rules cv gv)).map (fun r => (gv, r.name))).filter
            (fun t => fetch t.1 t.2)).length,
        errors := s.errors +
          (((rs.filter (eligible rules cv gv)).map (fun r => (gv, r.name))).filter
            (fun t => !fetch t.1 t.2)).length,
        skipped := s.skipped + (skippedTypes rules cv gv rs).length } := by
  induction rs generalizing s with
  | nil => simp [collectAPIResources, skippedTypes]
  | cons r rest ih =>
    rw [collectAPIResources, ih]
    by_cases h1 : goContains r.name (str "/") = true
    · simp [collectStep, h1, eligible, basicEligible, skippedTypes, List.filter_cons]
    · by_cases h2 : (containsString r.verbs (str "list") && containsString r.verbs (str "get")) = true
      · by_cases h3 : skipDecision rules cv gv r = true
        · simp [collectStep, h1, h2, h3, eligible, basicEligible, skippedTypes, List.filter_cons]
          omega
        · by_cases h4 : fetch gv r.name = true
          · simp [collectStep, h1, h2, h3, h4, eligible, basicEligible, skippedTypes,
              List.filter_cons, List.append_assoc]
            try omega
          · simp [collectStep, h1, h2, h3, h4, eligible, basicEligible, skippedTypes,
              List.filter_cons]
            try omega
      · simp [collectStep, h1, h2, eligible, basicEligible, skippedTypes, List.filter_cons]

/-- Closed form of the outer collection loop over all discovered lists. -/
theorem collectLists_spec (rules : List DeprecationRule) (cv : Option ClusterVersion)
    (fetch : Str → Str → Bool) (ls : List ResourceList) (s : CollectState) :
    collectLists rules cv fetch ls s =
      { collectedTypes := s.collectedTypes ++
          (eligibleTypes rules cv ls).filter (fun t => fetch t.1 t.2),
        collected := s.collected +
          ((eligibleTypes rules cv ls).filter (fun t => fetch t.1 t.2)).length,
        errors := s.errors +
          ((eligibleTypes rules cv ls).filter (fun t => !fetch t.1 t.2)).length,
        skipped := s.skipped + skippedCount rules cv ls } := by
  induction ls generalizing s with
  | nil => simp [collectLists, eligibleTypes, skippedCount]
  | cons rl rest ih =>
    rw [collectLists, collectAPIResources_spec, ih]
    simp [eligibleTypes, skippedCount, List.filter_append, List.append_assoc]
    omega

/-- Without a detected cluster version the deprecation check is never
consulted. -/
theorem skipDecision_none (rules : List DeprecationRule) (gv : Str) (r : APIResource) :
    skipDecision rules none gv r = false := rfl

/-- With an empty rule set the deprecation check never fires. -/
theorem skipDecision_nil_rules (v : ClusterVersion) (gv : Str) (r : APIResource) :
    skipDecision [] (some v) gv r = false := rfl

/-- When the deprecation check never fires, the eligible types are exactly
those passing the version-independent filters. -/
theorem eligibleTypes_eq_baseTypes (rules : List DeprecationRule) (cv : Option ClusterVersion)
    (ls : List ResourceList) (h : ∀ gv r, skipDecision rules cv gv r = false) :
    eligibleTypes rules cv ls = baseTypes ls := by
  induction ls with
  | nil => rfl
  | cons rl rest ih =>
    rw [eligibleTypes, baseTypes, ih]
    congr 1
    congr 1
    apply List.filter_congr
    intro r _
    simp [eligible, h]

/-- When the deprecation check never fires, nothing is counted skipped. -/
theorem skippedCount_eq_zero (rules : List DeprecationRule) (cv : Option ClusterVersion)
    (ls : List ResourceList) (h : ∀ gv r, skipDecision rules cv gv r = false) :
    skippedCount rules cv ls = 0 := by
  induction ls with
  | nil => rfl
  | cons rl rest ih =>
    rw [skippedCount, ih]
    simp [skippedTypes, h]

/-- C7: once discovery has succeeded, the collection run always returns
success whatever the per-type fetch outcomes; every eligible type is
processed — the collected trace is exactly the eligible types whose fetch
succeeded, the collected count its length, and the error count the number of
eligible types whose fetch failed. -/
theorem c7_partial_failure (rules : List DeprecationRule) (cv : Option ClusterVersion)
    (fetch : Str → Str → Bool) (ls : List ResourceList) :
    collectResources rules cv fetch (.ok ls) = .ok (collectLists rules cv fetch ls initialState)
      ∧ (collectLists rules cv fetch ls initialState).collectedTypes
          = (eligibleTypes rules cv ls).filter (fun t => fetch t.1 t.2)
      ∧ (collectLists rules cv fetch ls initialState).collected
          = ((eligibleTypes rules cv ls).filter (fun t => fetch t.1 t.2)).length
      ∧ (collectLists rules cv fetch ls initialState).errors
          = ((eligibleTypes rules cv ls).filter (fun t => !fetch t.1 t.2)).length := by
  refine ⟨rfl, ?_, ?_, ?_⟩ <;> rw [collectLists_spec] <;> simp [initialState]

/-- C6: when cluster version detection fails (version none), collection is
independent of the rule set, equals a run with no deprecation rules at all,
and the skipped count stays zero. -/
theorem c6_fail_open (rules rules2 : List DeprecationRule) (v : ClusterVersion)
    (fetch : Str → Str → Bool) (d : Except Str (List ResourceList)) :
    collectResources rules none fetch d = collectResources rules2 none fetch d
      ∧ collectResources rules none fetch d = collectResources [] (some v) fetch d
      ∧ ∀ ls, (collectLists rules none fetch ls initialState).skipped = 0 := by
  have hgen : ∀ (rls : List DeprecationRule) (cv : Option ClusterVersion),
      (∀ gv r, skipDecision rls cv gv r = false) → ∀ ls : List ResourceList,
      collectLists rls cv fetch ls initialState
        = { collectedTypes := (baseTypes ls).filter (fun t => fetch t.1 t.2),
            collected := ((baseTypes ls).filter (fun t => fetch t.1 t.2)).length,
            errors := ((baseTypes ls).filter (fun t => !fetch t.1 t.2)).length,
            skipped := 0 } := by
    intro rls cv h ls
    rw [collectLists_spec, eligibleTypes_eq_baseTypes rls cv ls h,
      skippedCount_eq_zero rls cv ls h]
    simp [initialState]
  refine ⟨?_, ?_, fun ls => by rw [hgen rules none (skipDecision_none rules) ls]⟩
  · cases d with
    | error e => rfl
    | ok ls =>
      simp only [collectResources]
      rw [hgen rules none (skipDecision_none rules) ls,
        hgen rules2 none (skipDecision_none rules2) ls]
  · cases d with
    | error e => rfl
    | ok ls =>
      simp only [collectResources]
      rw [hgen rules none (skipDecision_none rules) ls,
        hgen [] (some v) (skipDecision_nil_rules v) ls]

end KRC
